import Mathlib

/-!
Verification of the env-var serializer in `src/ser.rs`.

The serializer walks a serde value and appends text to a growing output
buffer, tracking a key path (uppercased struct field names) and a flag
`is_seq` telling whether the current context is a sequence/tuple.

The shallow embedding below mirrors `src/ser.rs` function by function:
  - `Serializer` is the struct of the same name (output, keys, is_seq);
  - `Value` is the serde data model driving the visit callbacks
    (floating point values are omitted: no claim mentions them);
  - `ser` performs exactly the appends each `serialize_*` method and each
    `Serialize*` impl performs, in the same order, with the same
    buffer-suffix checks;
  - `to_string` builds the fresh serializer and returns its output,
    as the Rust `to_string` does.
Machine integers are embedded as `Int`/`Nat`; every Rust width delegates
to the 64-bit method through a value-preserving `From` conversion, so the
embedding carries the mathematical value and states width bounds as
hypotheses where a claim quantifies over a fixed width.
-/

/-- Serializer state, mirroring `struct Serializer` in `src/ser.rs`:
the growing output buffer, the stack of uppercased field names, and the
flag set while a sequence is being emitted. -/
structure Serializer where
  output : String
  keys : List String
  is_seq : Bool
deriving Repr, DecidableEq

/-- Modelled from the spec: the error type lives in the missing
`src/error.rs`; section 7 of the design describes a single propagated
failure kind carrying no structure the encoder inspects, so it is
modelled as one constructor with a message. -/
inductive Error where
  | custom (msg : String)
deriving Repr, DecidableEq

/-- The serde data model as driven against the serializer: one
constructor per family of visit callbacks of `src/ser.rs`. The
`vErr` constructor stands for a value whose own `Serialize`
implementation fails with the given message, which is the only failure
source the design admits. Floating point values are omitted (no claim
mentions them). -/
inductive Value where
  | vBool (b : Bool)
  | vI8 (v : Int)
  | vI16 (v : Int)
  | vI32 (v : Int)
  | vI64 (v : Int)
  | vU8 (v : Nat)
  | vU16 (v : Nat)
  | vU32 (v : Nat)
  | vU64 (v : Nat)
  | vChar (c : Char)
  | vStr (s : String)
  | vBytes (bs : List Nat)
  | vNone
  | vSome (v : Value)
  | vUnit
  | vUnitStruct (name : String)
  | vUnitVariant (name : String) (idx : Nat) (variant : String)
  | vNewtypeStruct (name : String) (v : Value)
  | vNewtypeVariant (name : String) (idx : Nat) (variant : String) (v : Value)
  | vSeq (xs : List Value)
  | vTuple (xs : List Value)
  | vTupleStruct (name : String) (xs : List Value)
  | vTupleVariant (name : String) (idx : Nat) (variant : String) (xs : List Value)
  | vMap (entries : List (Value × Value))
  | vStruct (name : String) (fields : List (String × Value))
  | vStructVariant (name : String) (idx : Nat) (variant : String)
      (fields : List (String × Value))
  | vErr (msg : String)

/-- The single-quote character, written by code point to keep the file
free of quote-literal pitfalls. -/
def squote : String := String.singleton (Char.ofNat 39)

/-- Rust `str::ends_with`: the candidate is a suffix of the buffer. -/
def str_ends_with (s pat : String) : Bool := List.isSuffixOf pat.data s.data

/-- Rust `str::to_uppercase`, as applied to the ASCII field names the
serializer receives: uppercase every character. -/
def toUpperStr (s : String) : String := String.mk (s.data.map Char.toUpper)

/-- Rust `Vec::join("_")` on the key stack. -/
def joinKeys : List String → String
  | [] => ""
  | [k] => k
  | k :: k2 :: rest => k ++ "_" ++ joinKeys (k2 :: rest)

/-- Decimal digits of `n`, most significant first, produced with
structural fuel so that concrete values reduce in the kernel; fuel
`n + 1` always suffices since a number has at most `n` digits. -/
def natDigitsF : Nat → Nat → List Char
  | 0, _ => []
  | fuel + 1, n =>
    if n = 0 then [] else natDigitsF fuel (n / 10) ++ [Char.ofNat (48 + n % 10)]

/-- Rust `u64::to_string()`: decimal representation. -/
def natDecimal (n : Nat) : String :=
  if n = 0 then "0" else String.mk (natDigitsF (n + 1) n)

/-- Rust `i64::to_string()`: decimal representation with a leading
minus sign for negative values. -/
def intDecimal (i : Int) : String :=
  if i < 0 then "-" ++ natDecimal i.natAbs else natDecimal i.toNat

/-- Rust `self.output += s`. -/
def appendOut (st : Serializer) (s : String) : Serializer :=
  { st with output := st.output ++ s }

/-- `serialize_bool` in `src/ser.rs`: the bare literal, with no key
path and no newline. -/
def serialize_bool (st : Serializer) (v : Bool) : Serializer :=
  appendOut st (if v then "true" else "false")

/-- `serialize_i64` in `src/ser.rs`; every signed width delegates here
after a value-preserving widening. -/
def serialize_i64 (st : Serializer) (v : Int) : Serializer :=
  let st1 := if !st.is_seq then appendOut st (joinKeys st.keys ++ "=") else st
  let st2 := appendOut st1 (intDecimal v)
  if !st2.is_seq then appendOut st2 "\n" else st2

/-- `serialize_u64` in `src/ser.rs`; every unsigned width delegates
here after a value-preserving widening. -/
def serialize_u64 (st : Serializer) (v : Nat) : Serializer :=
  let st1 := if !st.is_seq then appendOut st (joinKeys st.keys ++ "=") else st
  let st2 := appendOut st1 (natDecimal v)
  if !st2.is_seq then appendOut st2 "\n" else st2

/-- `serialize_str` in `src/ser.rs`: double-quoted contents copied
verbatim, with the key-path line logic around it. -/
def serialize_str (st : Serializer) (v : String) : Serializer :=
  let st1 := if !st.is_seq then appendOut st (joinKeys st.keys ++ "=") else st
  let st2 := appendOut (appendOut (appendOut st1 "\"") v) "\""
  if !st2.is_seq then appendOut st2 "\n" else st2

/-- `serialize_unit` in `src/ser.rs`: just the two quote characters. -/
def serialize_unit (st : Serializer) : Serializer :=
  appendOut st "\"\""

/-- `serialize_seq` in `src/ser.rs` (also reached by `serialize_tuple`
and `serialize_tuple_struct`): set the flag, emit the joined key path,
`=`, and the opening single quote. -/
def seqBegin (st : Serializer) : Serializer :=
  let st1 : Serializer := { st with is_seq := true }
  appendOut (appendOut st1 (joinKeys st1.keys ++ "=")) squote

/-- `SerializeSeq::end` in `src/ser.rs`: closing single quote, newline,
and the flag cleared. -/
def seqEnd (st : Serializer) : Serializer :=
  let st1 := appendOut st (squote ++ "\n")
  { st1 with is_seq := false }

/-- `serialize_bytes` element loop: each byte goes through
`SerializeSeq::serialize_element` and then `serialize_u8`, which
widens to `serialize_u64`. -/
def serBytesElems : List Nat → Serializer → Serializer
  | [], st => st
  | b :: bs, st =>
    let st1 := if str_ends_with st.output squote then st else appendOut st ","
    serBytesElems bs (serialize_u64 st1 b)

mutual

/-- The traversal of a value against the serializer: one case per
serde visit, performing exactly the appends of `src/ser.rs`. -/
def ser : Value → Serializer → Except Error Serializer
  | .vBool b, st => .ok (serialize_bool st b)
  | .vI8 v, st => .ok (serialize_i64 st v)
  | .vI16 v, st => .ok (serialize_i64 st v)
  | .vI32 v, st => .ok (serialize_i64 st v)
  | .vI64 v, st => .ok (serialize_i64 st v)
  | .vU8 v, st => .ok (serialize_u64 st v)
  | .vU16 v, st => .ok (serialize_u64 st v)
  | .vU32 v, st => .ok (serialize_u64 st v)
  | .vU64 v, st => .ok (serialize_u64 st v)
  | .vChar c, st => .ok (serialize_str st (String.singleton c))
  | .vStr s, st => .ok (serialize_str st s)
  | .vBytes bs, st => .ok (seqEnd (serBytesElems bs (seqBegin st)))
  | .vNone, st => .ok st
  | .vSome v, st => ser v st
  | .vUnit, st => .ok (serialize_unit st)
  | .vUnitStruct _, st => .ok (serialize_unit st)
  | .vUnitVariant _ _ variant, st => .ok (serialize_str st variant)
  | .vNewtypeStruct _ v, st => ser v st
  | .vNewtypeVariant _ _ variant v, st =>
    match ser v (appendOut (serialize_str (appendOut st "\x7b") variant) ":") with
    | .error e => .error e
    | .ok st2 => .ok (appendOut st2 "\x7d")
  | .vSeq xs, st =>
    match serSeqElems xs (seqBegin st) with
    | .error e => .error e
    | .ok st2 => .ok (seqEnd st2)
  | .vTuple xs, st =>
    match serTupleElems xs (seqBegin st) with
    | .error e => .error e
    | .ok st2 => .ok (appendOut st2 "]")
  | .vTupleStruct _ xs, st =>
    match serTupleElems xs (seqBegin st) with
    | .error e => .error e
    | .ok st2 => .ok (appendOut st2 "]")
  | .vTupleVariant _ _ variant xs, st =>
    match serTupleElems xs
        (appendOut (serialize_str (appendOut st "\x7b") variant) ":[") with
    | .error e => .error e
    | .ok st2 => .ok (appendOut st2 "]\x7d")
  | .vMap entries, st =>
    match serMapEntries entries st with
    | .error e => .error e
    | .ok st2 => .ok (appendOut st2 "\x7d")
  | .vStruct _ fields, st => serStructFields fields st
  | .vStructVariant _ _ variant fields, st =>
    match serStructVarFields fields
        (appendOut (serialize_str (appendOut st "\x7b") variant) ":\x7b") with
    | .error e => .error e
    | .ok st2 => .ok (appendOut st2 "\x7d\x7d")
  | .vErr m, _ => .error (.custom m)

/-- `SerializeSeq::serialize_element`: comma unless the buffer still
ends with the opening single quote, then the element. -/
def serSeqElems : List Value → Serializer → Except Error Serializer
  | [], st => .ok st
  | x :: xs, st =>
    match ser x (if str_ends_with st.output squote then st else appendOut st ",") with
    | .error e => .error e
    | .ok st2 => serSeqElems xs st2

/-- `SerializeTuple::serialize_element` (and the identical tuple-struct
and tuple-variant field methods): comma unless the buffer ends with an
opening square bracket, then the element. -/
def serTupleElems : List Value → Serializer → Except Error Serializer
  | [], st => .ok st
  | x :: xs, st =>
    match ser x (if str_ends_with st.output "[" then st else appendOut st ",") with
    | .error e => .error e
    | .ok st2 => serTupleElems xs st2

/-- `SerializeMap::serialize_key` and `serialize_value`: comma unless
the buffer ends with an opening brace, the key, a colon, the value. -/
def serMapEntries : List (Value × Value) → Serializer → Except Error Serializer
  | [], st => .ok st
  | (k, v) :: rest, st =>
    match ser k (if str_ends_with st.output "\x7b" then st else appendOut st ",") with
    | .error e => .error e
    | .ok st1 =>
      match ser v (appendOut st1 ":") with
      | .error e => .error e
      | .ok st2 => serMapEntries rest st2

/-- `SerializeStruct::serialize_field`: push the uppercased field name,
serialize the value, pop. -/
def serStructFields : List (String × Value) → Serializer → Except Error Serializer
  | [], st => .ok st
  | (k, v) :: rest, st =>
    match ser v { st with keys := st.keys ++ [toUpperStr k] } with
    | .error e => .error e
    | .ok st2 => serStructFields rest { st2 with keys := st2.keys.dropLast }

/-- `SerializeStructVariant::serialize_field`: comma unless the buffer
ends with an opening brace, a colon, then the value; the field name is
dropped. -/
def serStructVarFields : List (String × Value) → Serializer → Except Error Serializer
  | [], st => .ok st
  | (_, v) :: rest, st =>
    match ser v
        (appendOut (if str_ends_with st.output "\x7b" then st else appendOut st ",") ":") with
    | .error e => .error e
    | .ok st2 => serStructVarFields rest st2

end

deriving instance DecidableEq for Except

/-- `to_string` in `src/ser.rs`: build the fresh serializer, drive the
value through it, return the buffer (or propagate the failure). -/
def to_string (v : Value) : Except Error String :=
  match ser v { output := "", keys := [], is_seq := false } with
  | .error e => .error e
  | .ok st => .ok st.output

/-- The inline rendering of the scalar shapes that go through the
key-path/line logic of `src/ser.rs` (integers, chars, strings). Bool
and unit are deliberately excluded: `serialize_bool` and
`serialize_unit` bypass that logic. -/
def scalarText : Value → Option String
  | .vI8 v => some (intDecimal v)
  | .vI16 v => some (intDecimal v)
  | .vI32 v => some (intDecimal v)
  | .vI64 v => some (intDecimal v)
  | .vU8 v => some (natDecimal v)
  | .vU16 v => some (natDecimal v)
  | .vU32 v => some (natDecimal v)
  | .vU64 v => some (natDecimal v)
  | .vChar c => some ("\"" ++ String.singleton c ++ "\"")
  | .vStr s => some ("\"" ++ s ++ "\"")
  | _ => none

/-- Outside a sequence context, a scalar visit emits the joined key
path, `=`, the inline rendering, and a newline. -/
theorem ser_scalar (v : Value) (r : String) (st : Serializer)
    (h : scalarText v = some r) (hs : st.is_seq = false) :
    ser v st =
      .ok { st with output := st.output ++ (joinKeys st.keys ++ "=" ++ r ++ "\n") } := by
  cases v <;> simp only [scalarText] at h <;>
    first
    | exact Option.noConfusion h
    | (injection h with h; subst h;
       simp [ser, serialize_i64, serialize_u64, serialize_str, appendOut, hs,
         String.append_assoc, -String.reduceAppend])

/-- Inside a sequence context, a scalar visit emits just the inline
rendering: no key path, no newline. -/
theorem ser_scalar_seq (v : Value) (r : String) (st : Serializer)
    (h : scalarText v = some r) (hs : st.is_seq = true) :
    ser v st = .ok { st with output := st.output ++ r } := by
  cases v <;> simp only [scalarText] at h <;>
    first
    | exact Option.noConfusion h
    | (injection h with h; subst h;
       simp [ser, serialize_i64, serialize_u64, serialize_str, appendOut, hs,
         String.append_assoc, -String.reduceAppend])

/-- The lines a struct with the given fields contributes, when every
field value is a scalar: one `KEYPATH=value` line per field, in order,
with the uppercased field name appended to the ambient key path. -/
def structLines (pre : List String) : List (String × Value) → String
  | [] => ""
  | (k, v) :: rest =>
    joinKeys (pre ++ [toUpperStr k]) ++ "=" ++ (scalarText v).getD "" ++ "\n" ++
      structLines pre rest

/-- Serializing a list of scalar struct fields outside a sequence
context appends exactly one line per field. -/
theorem serStructFields_scalar (fields : List (String × Value)) :
    ∀ (st : Serializer), (∀ p ∈ fields, (scalarText p.2).isSome) → st.is_seq = false →
    serStructFields fields st =
      .ok { st with output := st.output ++ structLines st.keys fields } := by
  induction fields with
  | nil =>
    intro st h hs
    simp [serStructFields, structLines]
  | cons p rest ih =>
    intro st h hs
    obtain ⟨k, v⟩ := p
    obtain ⟨r, hr⟩ := Option.isSome_iff_exists.mp (h (k, v) (by simp))
    have hstep := ser_scalar v r { st with keys := st.keys ++ [toUpperStr k] } hr hs
    rw [serStructFields, hstep]
    have hrest := ih { st with
        output := st.output ++
          (joinKeys (st.keys ++ [toUpperStr k]) ++ "=" ++ r ++ "\n") }
      (fun p hp => h p (by simp [hp])) hs
    simp only [List.dropLast_concat]
    rw [hrest]
    simp [structLines, hr, String.append_assoc, -String.reduceAppend]

/-- C1 counterexample: a bool is a scalar in the format grammar, but a
struct with a bool field does not get a `FLAG=...` line: the code in
`serialize_bool` bypasses the key-path/line logic and emits just the
bare literal, so the claim as stated fails on a bool field. -/
theorem c1_counterexample :
    to_string (.vStruct "T" [("flag", .vBool true)]) = .ok "true" ∧
    to_string (.vStruct "T" [("flag", .vBool true)]) ≠ .ok "FLAG=true\n" := by
  constructor
  · simp only [to_string, ser, serStructFields]
    decide
  · simp only [to_string, ser, serStructFields]
    decide

/-- C1 (amended): for every struct whose fields hold integer, char or
string values, encoding emits one line per field in declared order,
keyed by the upper-cased field name; a triply nested scalar field gets
the underscore-joined three-segment key path; the spec example
`UINT8=1 STRING="s"` holds. Bool and unit fields are excluded: they
bypass the line logic (see the counterexample). -/
theorem c1_struct_scalar_fields
    (name : String) (fields : List (String × Value))
    (hf : ∀ p ∈ fields, (scalarText p.2).isSome)
    (n1 n2 n3 f1 f2 f3 : String) (v : Value) (r : String)
    (hv : scalarText v = some r) :
    to_string (.vStruct name fields) = .ok (structLines [] fields)
    ∧ to_string (.vStruct n1 [(f1, .vStruct n2 [(f2, .vStruct n3 [(f3, v)])])])
        = .ok (toUpperStr f1 ++ "_" ++ toUpperStr f2 ++ "_" ++ toUpperStr f3
            ++ "=" ++ r ++ "\n")
    ∧ to_string (.vStruct "Test" [("uint8", .vU8 1), ("string", .vStr "s")])
        = .ok "UINT8=1\nSTRING=\"s\"\n" := by
  refine ⟨?_, ?_, ?_⟩
  · simp only [to_string, ser]
    rw [serStructFields_scalar fields _ hf rfl]
    simp
  · simp only [to_string, ser, serStructFields, List.nil_append]
    rw [ser_scalar v r _ hv rfl]
    simp [joinKeys, String.append_assoc, -String.reduceAppend]
  · simp only [to_string, ser, serStructFields]
    decide

/-- A one-character pattern is a suffix exactly when it is the last
character. -/
theorem isSuffixOf_singleton_eq (c : Char) (l : List Char) :
    List.isSuffixOf [c] l = (l.getLast? == some c) := by
  rw [List.isSuffixOf, ← List.head?_reverse]
  generalize l.reverse = m
  cases m with
  | nil => simp [List.isPrefixOf]
  | cons b t => simp [List.isPrefixOf, beq_iff_eq, eq_comm]

/-- Buffer-suffix check against a one-character pattern, phrased via
the last character of the buffer. -/
theorem str_ends_with_char (s : String) (c : Char) (pat : String)
    (hp : pat.data = [c]) :
    str_ends_with s pat = (s.data.getLast? == some c) := by
  rw [str_ends_with, hp, isSuffixOf_singleton_eq]

/-- The decimal rendering of a natural number is nonempty and ends in
a character other than an opening square bracket. -/
theorem natDecimal_last (n : Nat) :
    (natDecimal n).data ≠ [] ∧
      (natDecimal n).data.getLast? ≠ some (Char.ofNat 91) := by
  by_cases h : n = 0
  · subst h; decide
  · rw [natDecimal, if_neg h]
    have hd : natDigitsF (n + 1) n =
        natDigitsF n (n / 10) ++ [Char.ofNat (48 + n % 10)] := by
      rw [natDigitsF, if_neg h]
    have h10 : n % 10 < 10 := Nat.mod_lt _ (by norm_num)
    constructor
    · show natDigitsF (n + 1) n ≠ []
      rw [hd]; simp
    · show (natDigitsF (n + 1) n).getLast? ≠ some (Char.ofNat 91)
      rw [hd, List.getLast?_concat]
      intro hc
      injection hc with hc
      interval_cases hm : n % 10 <;> exact absurd hc (by decide)

/-- The decimal rendering of an integer is nonempty and ends in a
character other than an opening square bracket. -/
theorem intDecimal_last (i : Int) :
    (intDecimal i).data ≠ [] ∧
      (intDecimal i).data.getLast? ≠ some (Char.ofNat 91) := by
  rw [intDecimal]
  by_cases h : i < 0
  · rw [if_pos h]
    obtain ⟨hne, hlast⟩ := natDecimal_last i.natAbs
    obtain ⟨x, hx⟩ := Option.isSome_iff_exists.mp (List.getLast?_isSome.mpr hne)
    constructor
    · simp [hne]
    · rw [String.data_append, List.getLast?_append, hx]
      simpa [hx] using hlast
  · rw [if_neg h]; exact natDecimal_last i.toNat

/-- Every scalar rendering is nonempty and does not end in an opening
square bracket (digits, a quote, or a minus-digit tail only). -/
theorem scalarText_last (v : Value) (r : String) (h : scalarText v = some r) :
    r.data ≠ [] ∧ r.data.getLast? ≠ some (Char.ofNat 91) := by
  cases v <;> simp only [scalarText] at h <;>
    first
    | exact Option.noConfusion h
    | (injection h with h; subst h;
       first
       | exact intDecimal_last _
       | exact natDecimal_last _
       | (constructor
          · simp
          · rw [String.data_append, String.data_append,
              show ("\"" : String).data = [Char.ofNat 34] from rfl,
              List.append_assoc, List.getLast?_append, List.getLast?_concat]
            decide))

/-- Comma-joined renderings with a comma also before the first
element, as the tuple path actually produces. -/
def commaAll : List String → String
  | [] => ""
  | r :: rest => "," ++ r ++ commaAll rest

/-- Serializing scalar tuple elements from a buffer that does not end
in an opening square bracket puts a comma before every element,
including the first. -/
theorem serTupleElems_scalar (elems : List Value) :
    ∀ (rs : List String) (st : Serializer),
      elems.map scalarText = rs.map some →
      st.is_seq = true →
      st.output.data.getLast? ≠ some (Char.ofNat 91) →
      serTupleElems elems st = .ok { st with output := st.output ++ commaAll rs } := by
  induction elems with
  | nil =>
    intro rs st h _ _
    cases rs with
    | nil => simp [serTupleElems, commaAll]
    | cons r rs2 => simp at h
  | cons x xs ih =>
    intro rs st h hs hlast
    cases rs with
    | nil => simp at h
    | cons r rs2 =>
      simp only [List.map_cons, List.cons.injEq] at h
      obtain ⟨hx, hxs⟩ := h
      have hcond : str_ends_with st.output "[" = false := by
        rw [str_ends_with_char st.output (Char.ofNat 91) "[" rfl]
        simp [hlast]
      have hstep := ser_scalar_seq x r (appendOut st ",") hx (by simp [appendOut, hs])
      rw [serTupleElems, hcond]
      simp only [Bool.false_eq_true, if_false]
      rw [hstep]
      simp only [appendOut]
      obtain ⟨hrne, hrlast⟩ := scalarText_last x r hx
      have hnew : ((st.output ++ ",") ++ r).data.getLast? ≠ some (Char.ofNat 91) := by
        rw [String.data_append, List.getLast?_append]
        obtain ⟨y, hy⟩ := Option.isSome_iff_exists.mp (List.getLast?_isSome.mpr hrne)
        rw [hy]
        simpa [hy] using hrlast
      rw [ih rs2 { output := st.output ++ "," ++ r, keys := st.keys, is_seq := st.is_seq }
        hxs hs hnew]
      simp [commaAll, String.append_assoc, -String.reduceAppend]

/-- C1 witness: the amended struct theorem applied to the spec example
struct and the nested-struct test shape from the repository. -/
theorem c1_struct_scalar_fields_witness :
    (∀ p ∈ ([("uint8", Value.vU8 1), ("string", Value.vStr "s")] : List (String × Value)),
      (scalarText p.2).isSome)
    ∧ scalarText (Value.vI32 7) = some (intDecimal 7)
    ∧ (to_string (.vStruct "Test" [("uint8", .vU8 1), ("string", .vStr "s")])
        = .ok (structLines [] [("uint8", .vU8 1), ("string", .vStr "s")])
      ∧ to_string (.vStruct "A"
            [("nested", .vStruct "B" [("nested_again", .vStruct "C" [("int32", .vI32 7)])])])
        = .ok (toUpperStr "nested" ++ "_" ++ toUpperStr "nested_again" ++ "_"
            ++ toUpperStr "int32" ++ "=" ++ intDecimal 7 ++ "\n")
      ∧ to_string (.vStruct "Test" [("uint8", .vU8 1), ("string", .vStr "s")])
        = .ok "UINT8=1\nSTRING=\"s\"\n") :=
  ⟨by decide, by decide,
    c1_struct_scalar_fields "Test" [("uint8", .vU8 1), ("string", .vStr "s")] (by decide)
      "A" "B" "C" "nested" "nested_again" "int32" (.vI32 7) (intDecimal 7) (by decide)⟩

/-- C2: the sequence of two strings encodes at top level to an empty
key path, one single-quoted comma-separated token and a trailing
newline, and as the struct field `seq` to the same with a `SEQ` key. -/
theorem c2_seq_two_strings :
    to_string (.vSeq [.vStr "a", .vStr "b"])
      = .ok ("=" ++ squote ++ "\"a\",\"b\"" ++ squote ++ "\n")
    ∧ to_string (.vStruct "Test" [("seq", .vSeq [.vStr "a", .vStr "b"])])
      = .ok ("SEQ=" ++ squote ++ "\"a\",\"b\"" ++ squote ++ "\n") := by
  constructor <;>
    (simp only [to_string, ser, serSeqElems, serStructFields]; decide)

/-- C3: every integer width encodes a bare top-level value as the
unquoted decimal between `=` and a newline, and each narrower width
produces exactly the output of the widest method it widens to. -/
theorem c3_integer_widths (i : Int) (n : Nat) :
    ((-(2 ^ 63) ≤ i ∧ i < 2 ^ 63) →
      to_string (.vI64 i) = .ok ("=" ++ intDecimal i ++ "\n"))
    ∧ ((-(2 ^ 7) ≤ i ∧ i < 2 ^ 7) → to_string (.vI8 i) = to_string (.vI64 i))
    ∧ ((-(2 ^ 15) ≤ i ∧ i < 2 ^ 15) → to_string (.vI16 i) = to_string (.vI64 i))
    ∧ ((-(2 ^ 31) ≤ i ∧ i < 2 ^ 31) → to_string (.vI32 i) = to_string (.vI64 i))
    ∧ (n < 2 ^ 64 → to_string (.vU64 n) = .ok ("=" ++ natDecimal n ++ "\n"))
    ∧ (n < 2 ^ 8 → to_string (.vU8 n) = to_string (.vU64 n))
    ∧ (n < 2 ^ 16 → to_string (.vU16 n) = to_string (.vU64 n))
    ∧ (n < 2 ^ 32 → to_string (.vU32 n) = to_string (.vU64 n)) := by
  refine ⟨fun _ => ?_, fun _ => by simp only [to_string, ser],
    fun _ => by simp only [to_string, ser], fun _ => by simp only [to_string, ser],
    fun _ => ?_, fun _ => by simp only [to_string, ser],
    fun _ => by simp only [to_string, ser], fun _ => by simp only [to_string, ser]⟩
  · simp only [to_string]
    rw [ser_scalar (.vI64 i) (intDecimal i) _ rfl rfl]
    simp [joinKeys]
  · simp only [to_string]
    rw [ser_scalar (.vU64 n) (natDecimal n) _ rfl rfl]
    simp [joinKeys]

/-- C3 witness: the width theorems applied at 5 and 7. -/
theorem c3_integer_widths_witness :
    (-(2 ^ 63) ≤ (5 : Int) ∧ (5 : Int) < 2 ^ 63)
    ∧ ((7 : Nat) < 2 ^ 64)
    ∧ to_string (.vI64 5) = .ok ("=" ++ intDecimal 5 ++ "\n")
    ∧ to_string (.vI8 5) = to_string (.vI64 5)
    ∧ to_string (.vI16 5) = to_string (.vI64 5)
    ∧ to_string (.vI32 5) = to_string (.vI64 5)
    ∧ to_string (.vU64 7) = .ok ("=" ++ natDecimal 7 ++ "\n")
    ∧ to_string (.vU8 7) = to_string (.vU64 7)
    ∧ to_string (.vU16 7) = to_string (.vU64 7)
    ∧ to_string (.vU32 7) = to_string (.vU64 7) :=
  ⟨by decide, by decide,
    (c3_integer_widths 5 7).1 (by decide),
    (c3_integer_widths 5 7).2.1 (by decide),
    (c3_integer_widths 5 7).2.2.1 (by decide),
    (c3_integer_widths 5 7).2.2.2.1 (by decide),
    (c3_integer_widths 5 7).2.2.2.2.1 (by decide),
    (c3_integer_widths 5 7).2.2.2.2.2.1 (by decide),
    (c3_integer_widths 5 7).2.2.2.2.2.2.1 (by decide),
    (c3_integer_widths 5 7).2.2.2.2.2.2.2 (by decide)⟩

/-- C4 counterexample: a bare unit at top level yields just the two
quote characters; the claimed `=` before them never appears, because
`serialize_unit` skips the key-path logic entirely. -/
theorem c4_counterexample :
    to_string .vUnit = .ok "\"\"" ∧ to_string .vUnit ≠ .ok "=\"\"" := by
  constructor <;> (simp only [to_string, ser]; decide)

/-- C4 (amended): a unit or unit-struct visit appends exactly the
two-character literal of two double quotes, with no key path, no `=`
and no newline, in every state; at top level the whole output is that
literal. -/
theorem c4_unit_two_quotes (st : Serializer) (name : String) :
    ser .vUnit st = .ok { st with output := st.output ++ "\"\"" }
    ∧ ser (.vUnitStruct name) st = .ok { st with output := st.output ++ "\"\"" }
    ∧ to_string .vUnit = .ok "\"\"" := by
  refine ⟨?_, ?_, ?_⟩
  · simp [ser, serialize_unit, appendOut]
  · simp [ser, serialize_unit, appendOut]
  · simp only [to_string, ser]
    decide

/-- C5 counterexample: the two-element tuple of bytes 1 and 2 encodes
with a comma immediately after the opening single quote — the first
element is comma-prefixed, refuting the first-element-no-comma claim. -/
theorem c5_counterexample :
    to_string (.vTuple [.vU8 1, .vU8 2]) = .ok ("=" ++ squote ++ ",1,2]")
    ∧ to_string (.vTuple [.vU8 1, .vU8 2]) ≠ .ok ("=" ++ squote ++ "1,2]") := by
  constructor <;> (simp only [to_string, ser, serTupleElems]; decide)

/-- C5 (amended): the element methods of tuples and tuple structs test
whether the buffer ends with an opening square bracket, but the open
delimiter these shapes actually emit (through the sequence path) is a
single quote, so a comma precedes every element including the first;
the end method appends only the closing square bracket, no newline. -/
theorem c5_tuple_commas (name : String) (elems : List Value) (rs : List String)
    (h : elems.map scalarText = rs.map some) :
    to_string (.vTuple elems) = .ok ("=" ++ squote ++ commaAll rs ++ "]")
    ∧ to_string (.vTupleStruct name elems)
      = .ok ("=" ++ squote ++ commaAll rs ++ "]") := by
  have hstart : ∀ v : Value, ser v { output := "", keys := [], is_seq := false }
      = (match serTupleElems elems (seqBegin { output := "", keys := [], is_seq := false }) with
        | .error e => .error e
        | .ok st2 => .ok (appendOut st2 "]")) →
      to_string v = .ok ("=" ++ squote ++ commaAll rs ++ "]") := by
    intro v hv
    have hb : seqBegin { output := "", keys := [], is_seq := false }
        = { output := "=" ++ squote, keys := [], is_seq := true } := by
      simp [seqBegin, appendOut, joinKeys]
    have helems := serTupleElems_scalar elems rs
      { output := "=" ++ squote, keys := [], is_seq := true } h rfl (by decide)
    rw [to_string, hv, hb, helems]
    simp [appendOut, String.append_assoc, -String.reduceAppend]
  constructor
  · exact hstart _ (by rw [ser])
  · exact hstart _ (by rw [ser])

/-- C5 witness: the amended tuple theorem applied to a two-element
tuple of a byte and a string. -/
theorem c5_tuple_commas_witness :
    ([Value.vU8 1, Value.vStr "a"].map scalarText
      = (["1", "\"a\""] : List String).map some)
    ∧ (to_string (.vTuple [.vU8 1, .vStr "a"])
        = .ok ("=" ++ squote ++ commaAll ["1", "\"a\""] ++ "]")
      ∧ to_string (.vTupleStruct "T" [.vU8 1, .vStr "a"])
        = .ok ("=" ++ squote ++ commaAll ["1", "\"a\""] ++ "]")) :=
  ⟨by decide, c5_tuple_commas "T" [.vU8 1, .vStr "a"] ["1", "\"a\""] (by decide)⟩

/-- C6 counterexample: a top-level newtype variant does not put a bare
quoted variant name between the braces; the variant name and the inner
value each re-enter the full line pipeline, picking up `=` and a
newline, so the output is not the grammar shape the claim states. -/
theorem c6_counterexample :
    to_string (.vNewtypeVariant "E" 1 "Newtype" (.vU32 1))
      = .ok "\x7b=\"Newtype\"\n:=1\n\x7d"
    ∧ to_string (.vNewtypeVariant "E" 1 "Newtype" (.vU32 1))
      ≠ .ok "\x7b\"Newtype\":1\x7d" := by
  constructor <;> (simp only [to_string, ser]; decide)

/-- C6 (amended): a top-level newtype variant emits the opening brace,
then the variant name through the full standalone-line rule (`=`,
quoted name, newline), then the colon, then the inner scalar through
the same line rule (`=`, rendering, newline), then the closing
brace. -/
theorem c6_newtype_variant_lines (name : String) (idx : Nat) (variant : String)
    (v : Value) (r : String) (hv : scalarText v = some r) :
    to_string (.vNewtypeVariant name idx variant v)
      = .ok ("\x7b" ++ "=" ++ "\"" ++ variant ++ "\"" ++ "\n" ++ ":"
          ++ "=" ++ r ++ "\n" ++ "\x7d") := by
  have hst : appendOut
      (serialize_str (appendOut { output := "", keys := [], is_seq := false } "\x7b") variant) ":"
      = { output := "\x7b" ++ ("=" ++ ("\"" ++ (variant ++ ("\"" ++ ("\n" ++ ":"))))),
          keys := [], is_seq := false } := by
    simp [serialize_str, appendOut, joinKeys, String.append_assoc, -String.reduceAppend]
  simp only [to_string, ser]
  rw [hst, ser_scalar v r _ hv rfl]
  simp [appendOut, joinKeys, String.append_assoc, -String.reduceAppend]

/-- C6 witness: the amended newtype-variant theorem at the shape of
the commented-out enum test of the repository. -/
theorem c6_newtype_variant_lines_witness :
    scalarText (Value.vU32 1) = some (natDecimal 1)
    ∧ to_string (.vNewtypeVariant "E" 1 "Newtype" (.vU32 1))
      = .ok ("\x7b" ++ "=" ++ "\"" ++ "Newtype" ++ "\"" ++ "\n" ++ ":"
          ++ "=" ++ natDecimal 1 ++ "\n" ++ "\x7d") :=
  ⟨by decide, c6_newtype_variant_lines "E" 1 "Newtype" (.vU32 1) (natDecimal 1) (by decide)⟩

/-- Removing an absent-optional field from a struct leaves the whole
field traversal unchanged: the none visit appends nothing and the
key push is undone by the pop. -/
theorem serStructFields_none (f : String) (fs2 : List (String × Value)) :
    ∀ (fs1 : List (String × Value)) (st : Serializer),
      serStructFields (fs1 ++ (f, .vNone) :: fs2) st = serStructFields (fs1 ++ fs2) st := by
  intro fs1
  induction fs1 with
  | nil =>
    intro st
    simp only [List.nil_append, serStructFields, ser, List.dropLast_concat]
  | cons p fs1 ih =>
    intro st
    obtain ⟨k, v⟩ := p
    simp only [List.cons_append, serStructFields]
    cases h : ser v { st with keys := st.keys ++ [toUpperStr k] } with
    | error e => rfl
    | ok st2 => exact ih _

/-- Replacing a present-optional field value by the wrapped value
itself leaves the field traversal unchanged: the some visit delegates
to the wrapped value unmodified. -/
theorem serStructFields_some (f : String) (v : Value) (fs2 : List (String × Value)) :
    ∀ (fs1 : List (String × Value)) (st : Serializer),
      serStructFields (fs1 ++ (f, .vSome v) :: fs2) st
        = serStructFields (fs1 ++ (f, v) :: fs2) st := by
  intro fs1
  induction fs1 with
  | nil =>
    intro st
    simp only [List.nil_append, serStructFields, ser]
  | cons p fs1 ih =>
    intro st
    obtain ⟨k, w⟩ := p
    simp only [List.cons_append, serStructFields]
    cases h : ser w { st with keys := st.keys ++ [toUpperStr k] } with
    | error e => rfl
    | ok st2 => exact ih _

/-- C7: an absent optional emits nothing and leaves the state
untouched, a present optional is serialized exactly like the wrapped
value, and at the struct-field level an absent-optional field can be
deleted — and a present-optional field unwrapped — without changing
the output. -/
theorem c7_option_fields :
    (∀ st : Serializer, ser .vNone st = .ok st)
    ∧ (∀ (v : Value) (st : Serializer), ser (.vSome v) st = ser v st)
    ∧ (∀ (n f : String) (fs1 fs2 : List (String × Value)),
        to_string (.vStruct n (fs1 ++ (f, .vNone) :: fs2))
          = to_string (.vStruct n (fs1 ++ fs2)))
    ∧ (∀ (n f : String) (v : Value) (fs1 fs2 : List (String × Value)),
        to_string (.vStruct n (fs1 ++ (f, .vSome v) :: fs2))
          = to_string (.vStruct n (fs1 ++ (f, v) :: fs2))) := by
  refine ⟨fun st => by rw [ser], fun v st => by rw [ser], ?_, ?_⟩
  · intro n f fs1 fs2
    rw [to_string, to_string, ser, ser, serStructFields_none]
  · intro n f v fs1 fs2
    rw [to_string, to_string, ser, ser, serStructFields_some]

mutual

/-- No value built only from data-model shapes is rejected. -/
def noErr : Value → Bool
  | .vSome v => noErr v
  | .vNewtypeStruct _ v => noErr v
  | .vNewtypeVariant _ _ _ v => noErr v
  | .vSeq xs => noErrList xs
  | .vTuple xs => noErrList xs
  | .vTupleStruct _ xs => noErrList xs
  | .vTupleVariant _ _ _ xs => noErrList xs
  | .vMap es => noErrEntries es
  | .vStruct _ fs => noErrFields fs
  | .vStructVariant _ _ _ fs => noErrFields fs
  | .vErr _ => false
  | _ => true

/-- All elements are free of failing values. -/
def noErrList : List Value → Bool
  | [] => true
  | x :: xs => noErr x && noErrList xs

/-- All keys and values are free of failing values. -/
def noErrEntries : List (Value × Value) → Bool
  | [] => true
  | (k, v) :: rest => noErr k && noErr v && noErrEntries rest

/-- All field values are free of failing values. -/
def noErrFields : List (String × Value) → Bool
  | [] => true
  | (_, v) :: rest => noErr v && noErrFields rest

end

mutual

/-- Every visit callback succeeds on inputs built from the data
model shapes alone; the only error source is a value whose own
serialization fails. -/
theorem ser_ok_exists (v : Value) (st : Serializer) (h : noErr v = true) :
    ∃ st2, ser v st = .ok st2 := by
  cases v with
  | vBool b => exact ⟨_, by rw [ser]⟩
  | vI8 v => exact ⟨_, by rw [ser]⟩
  | vI16 v => exact ⟨_, by rw [ser]⟩
  | vI32 v => exact ⟨_, by rw [ser]⟩
  | vI64 v => exact ⟨_, by rw [ser]⟩
  | vU8 v => exact ⟨_, by rw [ser]⟩
  | vU16 v => exact ⟨_, by rw [ser]⟩
  | vU32 v => exact ⟨_, by rw [ser]⟩
  | vU64 v => exact ⟨_, by rw [ser]⟩
  | vChar c => exact ⟨_, by rw [ser]⟩
  | vStr s => exact ⟨_, by rw [ser]⟩
  | vBytes bs => exact ⟨_, by rw [ser]⟩
  | vNone => exact ⟨_, by rw [ser]⟩
  | vSome v =>
    simp only [noErr] at h
    obtain ⟨st2, h2⟩ := ser_ok_exists v st h
    exact ⟨st2, by rw [ser]; exact h2⟩
  | vUnit => exact ⟨_, by rw [ser]⟩
  | vUnitStruct name => exact ⟨_, by rw [ser]⟩
  | vUnitVariant name idx variant => exact ⟨_, by rw [ser]⟩
  | vNewtypeStruct name v =>
    simp only [noErr] at h
    obtain ⟨st2, h2⟩ := ser_ok_exists v st h
    exact ⟨st2, by rw [ser]; exact h2⟩
  | vNewtypeVariant name idx variant v =>
    simp only [noErr] at h
    obtain ⟨st2, h2⟩ := ser_ok_exists v
      (appendOut (serialize_str (appendOut st "\x7b") variant) ":") h
    exact ⟨appendOut st2 "\x7d", by rw [ser]; simp only [h2]⟩
  | vSeq xs =>
    simp only [noErr] at h
    obtain ⟨st2, h2⟩ := serSeqElems_ok_exists xs (seqBegin st) h
    exact ⟨seqEnd st2, by rw [ser]; simp only [h2]⟩
  | vTuple xs =>
    simp only [noErr] at h
    obtain ⟨st2, h2⟩ := serTupleElems_ok_exists xs (seqBegin st) h
    exact ⟨appendOut st2 "]", by rw [ser]; simp only [h2]⟩
  | vTupleStruct name xs =>
    simp only [noErr] at h
    obtain ⟨st2, h2⟩ := serTupleElems_ok_exists xs (seqBegin st) h
    exact ⟨appendOut st2 "]", by rw [ser]; simp only [h2]⟩
  | vTupleVariant name idx variant xs =>
    simp only [noErr] at h
    obtain ⟨st2, h2⟩ := serTupleElems_ok_exists xs
      (appendOut (serialize_str (appendOut st "\x7b") variant) ":[") h
    exact ⟨appendOut st2 "]\x7d", by rw [ser]; simp only [h2]⟩
  | vMap es =>
    simp only [noErr] at h
    obtain ⟨st2, h2⟩ := serMapEntries_ok_exists es st h
    exact ⟨appendOut st2 "\x7d", by rw [ser]; simp only [h2]⟩
  | vStruct name fs =>
    simp only [noErr] at h
    obtain ⟨st2, h2⟩ := serStructFields_ok_exists fs st h
    exact ⟨st2, by rw [ser]; exact h2⟩
  | vStructVariant name idx variant fs =>
    simp only [noErr] at h
    obtain ⟨st2, h2⟩ := serStructVarFields_ok_exists fs
      (appendOut (serialize_str (appendOut st "\x7b") variant) ":\x7b") h
    exact ⟨appendOut st2 "\x7d\x7d", by rw [ser]; simp only [h2]⟩
  | vErr m => simp [noErr] at h

/-- Sequence element serialization succeeds on failure-free elements. -/
theorem serSeqElems_ok_exists (xs : List Value) (st : Serializer)
    (h : noErrList xs = true) : ∃ st2, serSeqElems xs st = .ok st2 := by
  cases xs with
  | nil => exact ⟨st, by rw [serSeqElems]⟩
  | cons x xs =>
    simp only [noErrList, Bool.and_eq_true] at h
    obtain ⟨st1, h1⟩ := ser_ok_exists x
      (if str_ends_with st.output squote then st else appendOut st ",") h.1
    obtain ⟨st2, h2⟩ := serSeqElems_ok_exists xs st1 h.2
    exact ⟨st2, by rw [serSeqElems]; simp only [h1]; exact h2⟩

/-- Tuple element serialization succeeds on failure-free elements. -/
theorem serTupleElems_ok_exists (xs : List Value) (st : Serializer)
    (h : noErrList xs = true) : ∃ st2, serTupleElems xs st = .ok st2 := by
  cases xs with
  | nil => exact ⟨st, by rw [serTupleElems]⟩
  | cons x xs =>
    simp only [noErrList, Bool.and_eq_true] at h
    obtain ⟨st1, h1⟩ := ser_ok_exists x
      (if str_ends_with st.output "[" then st else appendOut st ",") h.1
    obtain ⟨st2, h2⟩ := serTupleElems_ok_exists xs st1 h.2
    exact ⟨st2, by rw [serTupleElems]; simp only [h1]; exact h2⟩

/-- Map entry serialization succeeds on failure-free entries. -/
theorem serMapEntries_ok_exists (es : List (Value × Value)) (st : Serializer)
    (h : noErrEntries es = true) : ∃ st2, serMapEntries es st = .ok st2 := by
  cases es with
  | nil => exact ⟨st, by rw [serMapEntries]⟩
  | cons p rest =>
    obtain ⟨k, v⟩ := p
    simp only [noErrEntries, Bool.and_eq_true] at h
    obtain ⟨st1, h1⟩ := ser_ok_exists k
      (if str_ends_with st.output "\x7b" then st else appendOut st ",") h.1.1
    obtain ⟨st2, h2⟩ := ser_ok_exists v (appendOut st1 ":") h.1.2
    obtain ⟨st3, h3⟩ := serMapEntries_ok_exists rest st2 h.2
    exact ⟨st3, by rw [serMapEntries]; simp only [h1, h2]; exact h3⟩

/-- Struct field serialization succeeds on failure-free fields. -/
theorem serStructFields_ok_exists (fs : List (String × Value)) (st : Serializer)
    (h : noErrFields fs = true) : ∃ st2, serStructFields fs st = .ok st2 := by
  cases fs with
  | nil => exact ⟨st, by rw [serStructFields]⟩
  | cons p rest =>
    obtain ⟨k, v⟩ := p
    simp only [noErrFields, Bool.and_eq_true] at h
    obtain ⟨st1, h1⟩ := ser_ok_exists v { st with keys := st.keys ++ [toUpperStr k] } h.1
    obtain ⟨st2, h2⟩ := serStructFields_ok_exists rest
      { st1 with keys := st1.keys.dropLast } h.2
    exact ⟨st2, by rw [serStructFields]; simp only [h1]; exact h2⟩

/-- Struct variant field serialization succeeds on failure-free
fields. -/
theorem serStructVarFields_ok_exists (fs : List (String × Value)) (st : Serializer)
    (h : noErrFields fs = true) : ∃ st2, serStructVarFields fs st = .ok st2 := by
  cases fs with
  | nil => exact ⟨st, by rw [serStructVarFields]⟩
  | cons p rest =>
    obtain ⟨k, v⟩ := p
    simp only [noErrFields, Bool.and_eq_true] at h
    obtain ⟨st1, h1⟩ := ser_ok_exists v
      (appendOut (if str_ends_with st.output "\x7b" then st else appendOut st ",") ":") h.1
    obtain ⟨st2, h2⟩ := serStructVarFields_ok_exists rest st1 h.2
    exact ⟨st2, by rw [serStructVarFields]; simp only [h1]; exact h2⟩

end

/-- C8: the encoder introduces no failure modes of its own — every
value built from the data-model shapes alone encodes successfully —
and an inner serialization failure short-circuits the whole encode
call, skipping the remaining fields and returning only the error with
no partial buffer. -/
theorem c8_error_pass_through (v : Value) (h : noErr v = true)
    (n f m : String) (fs : List (String × Value)) :
    (∃ s, to_string v = .ok s)
    ∧ to_string (.vStruct n ((f, .vErr m) :: fs)) = .error (.custom m) := by
  constructor
  · obtain ⟨st2, h2⟩ := ser_ok_exists v { output := "", keys := [], is_seq := false } h
    exact ⟨st2.output, by rw [to_string, h2]⟩
  · rw [to_string, ser, serStructFields, ser]

/-- C8 witness: a small failure-free struct encodes successfully, and
a struct whose first field fails yields exactly that error while the
later field is never reached. -/
theorem c8_error_pass_through_witness :
    noErr (.vStruct "T" [("a", .vU8 1)]) = true
    ∧ ((∃ s, to_string (.vStruct "T" [("a", .vU8 1)]) = .ok s)
      ∧ to_string (.vStruct "N" (("f", .vErr "boom") :: [("b", .vU8 2)]))
        = .error (.custom "boom")) :=
  ⟨by simp [noErr, noErrFields],
    c8_error_pass_through (.vStruct "T" [("a", .vU8 1)])
      (by simp [noErr, noErrFields]) "N" "f" "boom" [("b", .vU8 2)]⟩

/-- Two top-level encode calls of the same value, each of which builds
its own fresh serializer exactly as `to_string` does. -/
def encode_twice (v : Value) : Except Error String × Except Error String :=
  (to_string v, to_string v)

/-- C9: encoding is deterministic and stateless across calls: two
separate encode calls of the same value agree, and each call is the
pure function of the value obtained by running the traversal from the
fresh state with empty buffer, empty key path and cleared flag. -/
theorem c9_deterministic (v : Value) :
    (encode_twice v).1 = (encode_twice v).2
    ∧ to_string v =
      (match ser v { output := "", keys := [], is_seq := false } with
        | .error e => .error e
        | .ok st => .ok st.output) :=
  ⟨rfl, rfl⟩

/-- C10: the newtype-struct wrapper is fully transparent: serializing
the wrapper in any state is literally serializing the wrapped value in
that state (same output, same final state, name ignored), and the
top-level encodings coincide. -/
theorem c10_newtype_struct_transparent (name : String) (v : Value) (st : Serializer) :
    ser (.vNewtypeStruct name v) st = ser v st
    ∧ to_string (.vNewtypeStruct name v) = to_string v := by
  constructor
  · rw [ser]
  · rw [to_string, to_string, ser]
